import Mathlib

/-
Verification of the expression-node framework of the VRL compiler
(boolean negation variant, file src/lib/vrl/compiler/src/expression/not.rs)
and of the New Relic sink event-model conversions
(file src/src/sinks/new_relic/model.rs).

Shallow embedding: pure Lean functions mirror the Rust source; machine
details that the claims do not touch (raw pointers, hash-map iteration
order) are modelled by plain lists with explicit index arithmetic.
-/

deriving instance DecidableEq for Except

namespace VRL

/-- Modelled from the spec: the runtime value model of the record
pipeline (the value crate is not part of the supplied sources).  Only the
shapes the claims exercise are populated: booleans and strings. -/
inductive Value where
  | boolean (b : Bool)
  | string (s : String)
deriving DecidableEq, Repr

/-- Modelled from the spec: runtime evaluation failures are plain failure
values without the rich diagnostic structure. -/
inductive RError where
  | expectedBoolean (got : Value)
  | missingField (field : String)
deriving DecidableEq, Repr

/-- The `Resolved` alias of the compiler: value or runtime failure. -/
abbrev Resolved := Except RError Value

/-- Placeholder used as the default of out-of-bounds slot reads; the
claims only quantify over in-bounds indices. -/
def defaultResolved : Resolved := Except.error (RError.missingField "")

/-- The `try_boolean` conversion of `VrlValueConvert`: the resolved value
must actually be a boolean, otherwise a runtime failure is raised. -/
def Value.try_boolean : Value → Except RError Bool
  | .boolean b => Except.ok b
  | v => Except.error (RError.expectedBoolean v)

/-- Modelled from the spec: a record is an opaque container offering
field get; modelled as an association list. -/
abbrev Record := List (String × Value)

/-- Field lookup on a record. -/
def Record.get (r : Record) (f : String) : Option Value :=
  (r.find? (fun p => p.1 = f)).map (fun p => p.2)

/-- Modelled from the spec: the value-kind lattice `Kind`, a set-valued
descriptor of the possible shapes a runtime value may take. -/
structure Kind where
  bytes : Bool
  integer : Bool
  float : Bool
  boolean : Bool
  timestamp : Bool
  null : Bool
  array : Bool
  object : Bool
deriving DecidableEq, Repr

/-- The kind containing exactly the boolean shape. -/
def Kind.booleanOnly : Kind := ⟨false, false, false, true, false, false, false, false⟩

/-- The kind containing exactly the bytes (string) shape. -/
def Kind.bytesOnly : Kind := ⟨true, false, false, false, false, false, false, false⟩

/-- The kind containing every shape. -/
def Kind.any : Kind := ⟨true, true, true, true, true, true, true, true⟩

/-- Containment query: the possible shapes are exactly boolean. -/
def Kind.is_boolean (k : Kind) : Bool := k = Kind.booleanOnly

/-- Modelled from the spec: `TypeDef` pairs a `Kind` with a fallibility
boolean. -/
structure TypeDef where
  fallible : Bool
  kind : Kind
deriving DecidableEq, Repr

/-- The infallible boolean type descriptor, `TypeDef::boolean()`. -/
def TypeDef.boolean : TypeDef := ⟨false, Kind.booleanOnly⟩

/-- Shape query on a type descriptor, `TypeDef::is_boolean`. -/
def TypeDef.is_boolean (td : TypeDef) : Bool := td.kind.is_boolean

/-- Fallibility query, `TypeDef::is_fallible`. -/
def TypeDef.is_fallible (td : TypeDef) : Bool := td.fallible

/-- Returns a copy with fallibility forced, `TypeDef::with_fallibility`. -/
def TypeDef.with_fallibility (td : TypeDef) (f : Bool) : TypeDef := { td with fallible := f }

/-- The expression tree.  The negation variant mirrors `struct Not` of
not.rs (its single child is the boxed `inner` expression); the literal
and query leaves are modelled from the spec as the representative leaf
variants the claims need. -/
inductive Expr where
  | literal (v : Value)
  | query (field : String)
  | not (inner : Expr)
deriving DecidableEq, Repr

/-- The kind of a concrete value. -/
def Value.kind : Value → Kind
  | .boolean _ => Kind.booleanOnly
  | .string _ => Kind.bytesOnly

/-- Boolean shape test on a concrete value. -/
def Value.isBoolean : Value → Bool
  | .boolean _ => true
  | _ => false

/-- Static type computation.  The negation case is `Not::type_def` of
not.rs lines 54-58: `TypeDef::boolean().with_fallibility(fallible)` where
`fallible` is the fallibility of the child.  The literal case is
infallible with the literal kind; the query case is modelled from the
spec (field access is always potentially fallible, statically unknown). -/
def Expr.type_def : Expr → TypeDef
  | .literal v => ⟨false, v.kind⟩
  | .query _ => ⟨true, Kind.any⟩
  | .not inner => TypeDef.with_fallibility TypeDef.boolean (TypeDef.is_fallible (Expr.type_def inner))

/-- Scalar resolution against one record.  The negation case is
`Not::resolve` of not.rs lines 40-42:
`Ok((!self.inner.resolve(ctx)?.try_boolean()?).into())`. -/
def Expr.resolve (ctx : Record) : Expr → Resolved
  | .literal v => Except.ok v
  | .query f =>
    match Record.get ctx f with
    | some v => Except.ok v
    | none => Except.error (RError.missingField f)
  | .not inner =>
    match Expr.resolve ctx inner with
    | Except.error e => Except.error e
    | Except.ok v =>
      match Value.try_boolean v with
      | Except.error e => Except.error e
      | Except.ok b => Except.ok (Value.boolean (!b))

/-- The per-slot transformation the batch loop of `Not::resolve_batch`
applies (not.rs line 49): read the slot, propagate a failure unchanged,
otherwise negate the boolean, with the defensive `try_boolean` re-check. -/
def notTransform (r : Resolved) : Resolved :=
  match r with
  | Except.error e => Except.error e
  | Except.ok v =>
    match Value.try_boolean v with
    | Except.error e => Except.error e
    | Except.ok b => Except.ok (Value.boolean (!b))

/-- Writing a selection of slots with values independent of the current
slot contents (the batch behaviour of leaf expressions). -/
def writeSlots (g : Nat → Resolved) (slots : List Resolved) (sv : List Nat) : List Resolved :=
  sv.foldl (fun s i => s.set i (g i)) slots

/-- In-place update of the selected slots from their current contents:
the loop of `Not::resolve_batch` (not.rs lines 47-51), which reads slot
`i`, applies the transformation and writes the result back to slot `i`. -/
def updateSlots (f : Resolved → Resolved) (slots : List Resolved) (sv : List Nat) : List Resolved :=
  sv.foldl (fun s i => s.set i (f (s.getD i defaultResolved))) slots

/-- The batch context: an ordered sequence of records and the parallel
buffer of resolved-value slots (`BatchContext` of the compiler). -/
structure BatchContext where
  records : List Record
  resolved_values : List Resolved
deriving DecidableEq, Repr

/-- Batch resolution.  The negation case is `Not::resolve_batch` of
not.rs lines 44-52: first the child batch-resolves against the same
selection vector, then for every selected index the slot is read,
transformed and written back in place.  The leaf cases are modelled from
the spec (each writes its per-record scalar result into the selected
slots). -/
def Expr.resolve_batch (ctx : BatchContext) (sv : List Nat) : Expr → BatchContext
  | .literal v =>
    { ctx with resolved_values := writeSlots (fun _ => Except.ok v) ctx.resolved_values sv }
  | .query f =>
    { ctx with resolved_values :=
        writeSlots (fun i => Expr.resolve (ctx.records.getD i []) (Expr.query f)) ctx.resolved_values sv }
  | .not inner =>
    let ctx2 := Expr.resolve_batch ctx sv inner
    { ctx2 with resolved_values := updateSlots notTransform ctx2.resolved_values sv }

/-- Modelled from the spec: a half-open byte range into the original
source text, attached purely for diagnostics. -/
structure Span where
  start : Nat
  stop : Nat
deriving DecidableEq, Repr

/-- The error-variant enumeration of not.rs lines 77-81: a single
`NonBoolean` case carrying the actual `Kind` of the operand. -/
inductive ErrorVariant where
  | NonBoolean (k : Kind)
deriving DecidableEq, Repr

/-- The construction error of not.rs lines 69-75: variant plus the span
of the negation operator and the span of the operand expression. -/
structure Error where
  variant : ErrorVariant
  not_span : Span
  expr_span : Span
deriving DecidableEq, Repr

/-- `Not::new` of not.rs lines 21-36: take the operand node apart into
its span and expression, compute the static type of the operand, fail
with a `NonBoolean` diagnostic when that type is not exactly boolean,
and otherwise wrap the operand. -/
def Not.new (node : Span × Expr) (not_span : Span) : Except Error Expr :=
  let expr_span := node.1
  let expr := node.2
  let type_def := Expr.type_def expr
  if !(TypeDef.is_boolean type_def) then
    Except.error
      { variant := ErrorVariant.NonBoolean type_def.kind
        not_span := not_span
        expr_span := expr_span }
  else
    Except.ok (Expr.not expr)

/-- Modelled from the spec: a diagnostic label pairs a span with a role
(primary or context) and a rendered message. -/
structure Label where
  message : String
  isPrimary : Bool
  span : Span
deriving DecidableEq, Repr

/-- Constructor of a primary label. -/
def Label.primary (m : String) (s : Span) : Label := ⟨m, true, s⟩

/-- Constructor of a context label. -/
def Label.context (m : String) (s : Span) : Label := ⟨m, false, s⟩

/-- Modelled from the spec: remediation notes, optionally pointing at
documentation anchors.  Only the two variants not.rs uses are
populated. -/
inductive Note where
  | CoerceValue
  | SeeDocs (subject : String) (url : String)
deriving DecidableEq, Repr

/-- Modelled from the spec: the documentation-link helper of the
diagnostic crate; `func_docs` produces the link to the function
documentation at the given anchor. -/
def Urls.func_docs (anchor : String) : String :=
  String.append "https://vrl.dev/functions/" anchor

/-- Modelled from the spec: the textual rendering of a `Kind`; the kind
containing exactly bytes renders as string, exactly boolean as
boolean. -/
def Kind.display (k : Kind) : String :=
  if k = Kind.bytesOnly then "string"
  else if k = Kind.booleanOnly then "boolean"
  else if k = Kind.any then "any"
  else "multiple kinds"

/-- `DiagnosticMessage::code` of not.rs lines 96-102: the `NonBoolean`
variant has the stable code 660. -/
def Error.code (e : Error) : Nat :=
  match e.variant with
  | ErrorVariant.NonBoolean _ => 660

/-- `DiagnosticMessage::labels` of not.rs lines 104-116: a primary label
at the span of the negation operator and a context label at the span of
the operand reporting its actual kind. -/
def Error.labels (e : Error) : List Label :=
  match e.variant with
  | ErrorVariant.NonBoolean kind =>
    [ Label.primary ("negation only works on boolean values") e.not_span,
      Label.context (String.append "this expression resolves to " (Kind.display kind)) e.expr_span ]

/-- `DiagnosticMessage::notes` of not.rs lines 118-132: suggest value
coercion and link the coerce-functions documentation. -/
def Error.notes (e : Error) : List Note :=
  match e.variant with
  | ErrorVariant.NonBoolean _ =>
    [ Note.CoerceValue,
      Note.SeeDocs ("type coercion") (Urls.func_docs ("#coerce-functions")) ]

/-- Rendering of a value in source text. -/
def Value.display : Value → String
  | .boolean true => "true"
  | .boolean false => "false"
  | .string s => String.append (String.append "\"" s) "\""

/-- Canonical source-text rendering.  The negation case is the `Display`
implementation of not.rs lines 61-65: the character bang followed by the
rendering of the child.  The leaf cases are modelled from the spec. -/
def Expr.display : Expr → String
  | .literal v => Value.display v
  | .query f => String.append "." f
  | .not inner => String.append "!" (Expr.display inner)

/-- The bang character. -/
def bangChar : Char := ('!')

/-- The dot character. -/
def dotChar : Char := ('.')

/-- The double-quote character. -/
def quoteChar : Char := ('"')

/-- Modelled from the spec: the external lexer/parser collaborator,
restricted to the display grammar of the modelled variants; parses one
atom that must span the whole remaining input. -/
def parseAtom (cs : List Char) : Option Expr :=
  if cs = ("true").toList then some (Expr.literal (Value.boolean true))
  else if cs = ("false").toList then some (Expr.literal (Value.boolean false))
  else
    match cs with
    | [] => none
    | c :: rest =>
      if c = dotChar then some (Expr.query (String.mk rest))
      else if c = quoteChar then
        match rest.getLast? with
        | some c2 =>
          if (c2 == quoteChar) && rest.dropLast.all (fun d => d != quoteChar) then
            some (Expr.literal (Value.string (String.mk rest.dropLast)))
          else none
        | none => none
      else none

/-- Modelled from the spec: the recursive entry of the parser; a leading
bang parses as negation of the remainder. -/
def parseChars : List Char → Option Expr
  | [] => none
  | c :: rest =>
    if c = bangChar then (parseChars rest).map Expr.not
    else parseAtom (c :: rest)

/-- Modelled from the spec: reparsing of displayed source text. -/
def parse (s : String) : Option Expr := parseChars s.data

/-- The displayed text of an expression is unambiguous when none of its
string literals contains a double quote (the display grammar writes no
escapes). -/
def escFree : Expr → Bool
  | .literal (.string s) => s.data.all (fun d => d != quoteChar)
  | .literal _ => true
  | .query _ => true
  | .not inner => escFree inner

end VRL

namespace NewRelic

/-- Modelled from the spec: the event value model of the pipeline; the
shapes the sink conversions insert. -/
inductive NRValue where
  | str (s : String)
  | int (n : Int)
  | float (notNanVal : Int)
  | boolV (b : Bool)
  | obj (fields : List (String × String))
deriving DecidableEq, Repr

/-- Modelled from the spec: a 64-bit float, reduced to what the
conversions inspect: whether it is NaN, plus an opaque payload used when
it is not. -/
structure F64 where
  isNaN : Bool
  val : Int
deriving DecidableEq, Repr

/-- The sink error type `NewRelicSinkError`. -/
structure NewRelicSinkError where
  message : String
deriving DecidableEq, Repr

/-- `NewRelicSinkError::new`. -/
def NewRelicSinkError.new (msg : String) : NewRelicSinkError := ⟨msg⟩

/-- `NotNan::new` of the ordered-float crate: fails exactly on NaN. -/
def NotNan.new (f : F64) : Except NewRelicSinkError Int :=
  if f.isNaN then Except.error (NewRelicSinkError.new "NaN value not supported")
  else Except.ok f.val

/-- Modelled from the spec: metric kind. -/
inductive MetricKind where
  | Incremental
  | Absolute
deriving DecidableEq, Repr

/-- Modelled from the spec: metric value; gauge and counter carry a
float, every other variant is collapsed into `Other`. -/
inductive MetricValue where
  | Gauge (value : F64)
  | Counter (value : F64)
  | Other
deriving DecidableEq, Repr

/-- Modelled from the spec: the metric event, reduced to the parts
`MetricsApiModel::try_from` reads after `into_parts`. -/
structure Metric where
  name : String
  tags : Option (List (String × String))
  value : MetricValue
  kind : MetricKind
  timestamp : Option Int
  interval_ms : Option Nat
deriving DecidableEq, Repr

/-- Modelled from the spec: a log event as its field map. -/
structure LogEvent where
  fields : List (String × NRValue)
deriving DecidableEq, Repr

/-- Modelled from the spec: the pipeline event, a log, metric or trace. -/
inductive Event where
  | log (l : LogEvent)
  | metric (m : Metric)
  | trace
deriving DecidableEq, Repr

/-- The `KeyValData` alias: `HashMap<String, Value>`, modelled as an
association list with replacing insertion. -/
abbrev KeyValData := List (String × NRValue)

/-- Replacing insertion, the `HashMap::insert` the conversions use. -/
def KVinsert (kv : KeyValData) (k : String) (v : NRValue) : KeyValData :=
  if kv.any (fun p => p.1 == k) then
    kv.map (fun p => if p.1 == k then (k, v) else p)
  else kv ++ [(k, v)]

/-- Key removal, `HashMap::remove`. -/
def KVremove (kv : KeyValData) (k : String) : KeyValData :=
  kv.filter (fun p => p.1 != k)

/-- Key lookup, `HashMap::get`. -/
def KVget (kv : KeyValData) (k : String) : Option NRValue :=
  (kv.find? (fun p => p.1 == k)).map (fun p => p.2)

/-- Field lookup on a log event, `log.get(key)`. -/
def LogEvent.get (log : LogEvent) (k : String) : Option NRValue :=
  KVget log.fields k

/-- The `MetricsApiModel` wrapper: a vector of data stores, each mapping
a key to an array of entries. -/
structure MetricsApiModel where
  data : List (List (String × List KeyValData))
deriving DecidableEq, Repr

/-- `MetricsApiModel::new` of model.rs lines 28-34: one store holding the
metric array under the metrics key. -/
def MetricsApiModel.new (metric_array : List KeyValData) : MetricsApiModel :=
  ⟨[[(("metrics"), metric_array)]]⟩

/-- The `EventsApiModel` wrapper: a plain array of entries. -/
structure EventsApiModel where
  entries : List KeyValData
deriving DecidableEq, Repr

/-- `EventsApiModel::new`. -/
def EventsApiModel.new (events_array : List KeyValData) : EventsApiModel :=
  ⟨events_array⟩

/-- The `LogsApiModel` wrapper: one store holding the log array under
the logs key. -/
structure LogsApiModel where
  data : List (List (String × List KeyValData))
deriving DecidableEq, Repr

/-- `LogsApiModel::new` of model.rs lines 185-191. -/
def LogsApiModel.new (logs_array : List KeyValData) : LogsApiModel :=
  ⟨[[(("logs"), logs_array)]]⟩

/-- The body of the metric loop of `MetricsApiModel::try_from`
(model.rs lines 42-100) for one metric event: `Except.error` when the
gauge or counter value is NaN, `Except.ok none` when the metric is
skipped (incremental counter without an interval), and otherwise
`Except.ok (some entry)`.  The ambient clock is passed in as `now`
(the source falls back to `SystemTime::now`). -/
def metric_entry (now : Int) (metric : Metric) : Except NewRelicSinkError (Option KeyValData) :=
  let attr : Option NRValue := metric.tags.map (fun tags => NRValue.obj tags)
  let base : Except NewRelicSinkError KeyValData :=
    match metric.value with
    | MetricValue.Gauge value | MetricValue.Counter value =>
      match NotNan.new value with
      | Except.error e => Except.error e
      | Except.ok nn =>
        let md := KVinsert [] ("name") (NRValue.str metric.name)
        let md := KVinsert md ("value") (NRValue.float nn)
        let md := KVinsert md ("timestamp")
          (NRValue.int (match metric.timestamp with | some ts => ts | none => now))
        let md := match attr with | some a => KVinsert md ("attributes") a | none => md
        Except.ok md
    | MetricValue.Other => Except.ok []
  match base with
  | Except.error e => Except.error e
  | Except.ok metric_data =>
    match metric.value, metric.kind with
    | MetricValue.Counter _, MetricKind.Incremental =>
      match metric.interval_ms with
      | some interval_ms =>
        Except.ok (some (KVinsert (KVinsert metric_data ("interval.ms") (NRValue.int interval_ms))
          ("type") (NRValue.str "count")))
      | none => Except.ok none
    | MetricValue.Gauge _, MetricKind.Absolute =>
      Except.ok (some (KVinsert metric_data ("type") (NRValue.str "gauge")))
    | MetricValue.Counter _, MetricKind.Absolute =>
      Except.ok (some (KVinsert metric_data ("type") (NRValue.str "gauge")))
    | _, _ => Except.ok (some metric_data)

/-- The metric loop of `MetricsApiModel::try_from`: non-metric events
are ignored, a NaN value aborts the whole conversion, a skipped metric
contributes nothing, every other metric contributes one entry. -/
def metrics_collect (now : Int) : List Event → Except NewRelicSinkError (List KeyValData)
  | [] => Except.ok []
  | Event.metric m :: rest =>
    match metric_entry now m with
    | Except.error e => Except.error e
    | Except.ok entry =>
      match metrics_collect now rest with
      | Except.error e => Except.error e
      | Except.ok tail =>
        match entry with
        | some kv => Except.ok (kv :: tail)
        | none => Except.ok tail
  | _ :: rest => metrics_collect now rest

/-- `TryFrom<Vec<Event>> for MetricsApiModel` (model.rs lines 36-109):
collect the metric entries, then fail when the array is empty. -/
def MetricsApiModel.try_from (now : Int) (buf_events : List Event) :
    Except NewRelicSinkError MetricsApiModel :=
  match metrics_collect now buf_events with
  | Except.error e => Except.error e
  | Except.ok metric_array =>
    if !metric_array.isEmpty then Except.ok (MetricsApiModel.new metric_array)
    else Except.error (NewRelicSinkError.new "No valid metrics to generate")

/-- Modelled from the spec: a JSON value as produced by parsing standard
JSON text.  The grammar of standard JSON has no NaN literal, so parsed
numbers are never NaN; the number payload is kept opaque. -/
inductive JVal where
  | str (s : String)
  | num (finiteVal : Int)
  | boolJ (b : Bool)
  | other
deriving DecidableEq, Repr

/-- Modelled from the spec: lossy string rendering of an event value. -/
def to_string_lossy : NRValue → String
  | NRValue.str s => s
  | NRValue.int n => toString n
  | NRValue.float n => toString n
  | NRValue.boolV b => if b then "true" else "false"
  | NRValue.obj _ => ""

/-- The body of the log loop of `EventsApiModel::try_from` (model.rs
lines 125-171) for one log event: build the field map, fold a JSON
message into it when the message parses (numbers from standard JSON are
never NaN, so the NaN guard of the source cannot fire), and default the
eventType field.  The external JSON parser is passed in as `jparse`. -/
def events_entry (jparse : String → Option (List (String × JVal))) (log : LogEvent) : KeyValData :=
  let event_model := log.fields.foldl (fun m p => KVinsert m p.1 p.2) []
  let event_model :=
    match LogEvent.get log "message" with
    | some message =>
      let mstr := (to_string_lossy message).replace ("\\\"") ("\"")
      match jparse mstr with
      | some json_map =>
        let m2 := json_map.foldl (fun m p =>
          match p.2 with
          | JVal.str s => KVinsert m p.1 (NRValue.str s)
          | JVal.num f => KVinsert m p.1 (NRValue.float f)
          | JVal.boolJ b => KVinsert m p.1 (NRValue.boolV b)
          | JVal.other => m) event_model
        KVremove m2 "message"
      | none => event_model
    | none => event_model
  match KVget event_model "eventType" with
  | none => KVinsert event_model ("eventType") (NRValue.str "VectorSink")
  | some _ => event_model

/-- The log loop of `EventsApiModel::try_from`: every log event
contributes exactly one entry, every other event none. -/
def events_collect (jparse : String → Option (List (String × JVal))) :
    List Event → List KeyValData
  | [] => []
  | Event.log l :: rest => events_entry jparse l :: events_collect jparse rest
  | _ :: rest => events_collect jparse rest

/-- `TryFrom<Vec<Event>> for EventsApiModel` (model.rs lines 120-180). -/
def EventsApiModel.try_from (jparse : String → Option (List (String × JVal)))
    (buf_events : List Event) : Except NewRelicSinkError EventsApiModel :=
  let events_array := events_collect jparse buf_events
  if !events_array.isEmpty then Except.ok (EventsApiModel.new events_array)
  else Except.error (NewRelicSinkError.new "No valid events to generate")

/-- The body of the log loop of `LogsApiModel::try_from` (model.rs lines
198-211) for one log event: the field map, with a default message field
when the log has none. -/
def logs_entry (log : LogEvent) : KeyValData :=
  let log_model := log.fields.foldl (fun m p => KVinsert m p.1 p.2) []
  match LogEvent.get log "message" with
  | none => KVinsert log_model ("message") (NRValue.str "log from vector")
  | some _ => log_model

/-- The log loop of `LogsApiModel::try_from`. -/
def logs_collect : List Event → List KeyValData
  | [] => []
  | Event.log l :: rest => logs_entry l :: logs_collect rest
  | _ :: rest => logs_collect rest

/-- `TryFrom<Vec<Event>> for LogsApiModel` (model.rs lines 193-220). -/
def LogsApiModel.try_from (buf_events : List Event) :
    Except NewRelicSinkError LogsApiModel :=
  let logs_array := logs_collect buf_events
  if !logs_array.isEmpty then Except.ok (LogsApiModel.new logs_array)
  else Except.error (NewRelicSinkError.new "No valid logs to generate")

/-- A gauge or counter metric whose float value is NaN. -/
def metricNaN (m : Metric) : Bool :=
  match m.value with
  | MetricValue.Gauge f => f.isNaN
  | MetricValue.Counter f => f.isNaN
  | MetricValue.Other => false

/-- An event that is a metric with a NaN gauge or counter value. -/
def eventNaN : Event → Bool
  | Event.metric m => metricNaN m
  | _ => false

/-- Whether the metric loop would push an entry for this metric when no
NaN aborts it: every metric except an incremental counter without an
interval. -/
def metricProducesEntry (m : Metric) : Bool :=
  match m.value, m.kind with
  | MetricValue.Counter _, MetricKind.Incremental => m.interval_ms.isSome
  | _, _ => true

/-- An event contributing a metric entry (ignoring NaN aborts). -/
def eventProduces : Event → Bool
  | Event.metric m => metricProducesEntry m
  | _ => false

/-- An event of the log variant. -/
def isLogEvent : Event → Bool
  | Event.log _ => true
  | _ => false

/-- Whether a metrics model holds at least one entry. -/
def MetricsApiModel.has_entries (m : MetricsApiModel) : Bool :=
  m.data.any (fun store => store.any (fun p => !p.2.isEmpty))

/-- Whether an events model holds at least one entry. -/
def EventsApiModel.has_entries (e : EventsApiModel) : Bool :=
  !e.entries.isEmpty

/-- Whether a logs model holds at least one entry. -/
def LogsApiModel.has_entries (m : LogsApiModel) : Bool :=
  m.data.any (fun store => store.any (fun p => !p.2.isEmpty))

/-- Shape probe: the result of one metric-loop step is a pushed entry. -/
def entryIsSome : Except NewRelicSinkError (Option KeyValData) → Bool
  | Except.ok (some _) => true
  | _ => false

/-- Modelled from the spec: the claimed reading of the number of entries
produced from the input, counting every event of the required variant
that is not a skipped candidate.  This is the spec-side definition the
counterexample compares against the code. -/
def specMetricEntriesProduced (evs : List Event) : Nat :=
  (evs.filter eventProduces).length

end NewRelic

namespace VRL

theorem getD_set_ne (s : List Resolved) {j i : Nat} (x d : Resolved) (h : j ≠ i) :
    (s.set j x).getD i d = s.getD i d := by
  simp [List.getD, List.getElem?_set_ne h]

theorem getD_set_self (s : List Resolved) {i : Nat} (x d : Resolved) (h : i < s.length) :
    (s.set i x).getD i d = x := by
  simp [List.getD, List.getElem?_set_eq_of_lt x h]

theorem writeSlots_cons (g : Nat → Resolved) (slots : List Resolved) (j : Nat) (rest : List Nat) :
    writeSlots g slots (j :: rest) = writeSlots g (slots.set j (g j)) rest := rfl

theorem writeSlots_length (g : Nat → Resolved) (sv : List Nat) :
    ∀ slots : List Resolved, (writeSlots g slots sv).length = slots.length := by
  induction sv with
  | nil => intro slots; rfl
  | cons j rest ih =>
    intro slots
    rw [writeSlots_cons, ih, List.length_set]

theorem writeSlots_getD_not_mem (g : Nat → Resolved) (sv : List Nat) {i : Nat} (d : Resolved)
    (h : i ∉ sv) :
    ∀ slots : List Resolved, (writeSlots g slots sv).getD i d = slots.getD i d := by
  induction sv with
  | nil => intro slots; rfl
  | cons j rest ih =>
    intro slots
    have h1 : i ≠ j := fun hh => h (hh ▸ List.mem_cons_self j rest)
    have h2 : i ∉ rest := fun hh => h (List.mem_cons_of_mem j hh)
    rw [writeSlots_cons, ih h2, getD_set_ne slots (g j) d (Ne.symm h1)]

theorem writeSlots_getD_mem (g : Nat → Resolved) (sv : List Nat) {i : Nat} (d : Resolved)
    (h : i ∈ sv) :
    ∀ slots : List Resolved, i < slots.length → (writeSlots g slots sv).getD i d = g i := by
  induction sv with
  | nil => cases h
  | cons j rest ih =>
    intro slots hlt
    rw [writeSlots_cons]
    by_cases hm : i ∈ rest
    · exact ih hm (slots.set j (g j)) (by rw [List.length_set]; exact hlt)
    · have hij : i = j := by
        rcases List.mem_cons.mp h with h1 | h2
        · exact h1
        · exact absurd h2 hm
      subst hij
      rw [writeSlots_getD_not_mem g rest d hm, getD_set_self slots (g i) d hlt]

theorem updateSlots_cons (f : Resolved → Resolved) (slots : List Resolved) (j : Nat)
    (rest : List Nat) :
    updateSlots f slots (j :: rest)
      = updateSlots f (slots.set j (f (slots.getD j defaultResolved))) rest := rfl

theorem updateSlots_length (f : Resolved → Resolved) (sv : List Nat) :
    ∀ slots : List Resolved, (updateSlots f slots sv).length = slots.length := by
  induction sv with
  | nil => intro slots; rfl
  | cons j rest ih =>
    intro slots
    rw [updateSlots_cons, ih, List.length_set]

theorem updateSlots_getD_not_mem (f : Resolved → Resolved) (sv : List Nat) {i : Nat} (d : Resolved)
    (h : i ∉ sv) :
    ∀ slots : List Resolved, (updateSlots f slots sv).getD i d = slots.getD i d := by
  induction sv with
  | nil => intro slots; rfl
  | cons j rest ih =>
    intro slots
    have h1 : i ≠ j := fun hh => h (hh ▸ List.mem_cons_self j rest)
    have h2 : i ∉ rest := fun hh => h (List.mem_cons_of_mem j hh)
    rw [updateSlots_cons, ih h2, getD_set_ne slots _ d (Ne.symm h1)]

theorem updateSlots_getD_mem (f : Resolved → Resolved) (sv : List Nat) {i : Nat}
    (hnd : sv.Nodup) (h : i ∈ sv) :
    ∀ slots : List Resolved, i < slots.length →
      (updateSlots f slots sv).getD i defaultResolved = f (slots.getD i defaultResolved) := by
  induction sv with
  | nil => cases h
  | cons j rest ih =>
    intro slots hlt
    obtain ⟨hjr, hndr⟩ := List.nodup_cons.mp hnd
    rw [updateSlots_cons]
    rcases List.mem_cons.mp h with h1 | h2
    · subst h1
      rw [updateSlots_getD_not_mem f rest defaultResolved hjr,
        getD_set_self slots _ defaultResolved hlt]
    · have hij : i ≠ j := fun hh => hjr (hh ▸ h2)
      rw [ih hndr h2 (slots.set j (f (slots.getD j defaultResolved)))
        (by rw [List.length_set]; exact hlt)]
      rw [getD_set_ne slots _ defaultResolved (Ne.symm hij)]

theorem resolve_batch_records (e : Expr) (ctx : BatchContext) (sv : List Nat) :
    (Expr.resolve_batch ctx sv e).records = ctx.records := by
  induction e generalizing ctx with
  | literal v => rfl
  | query f => rfl
  | not inner ih =>
    show (Expr.resolve_batch ctx sv inner).records = ctx.records
    exact ih ctx

theorem resolve_batch_length (e : Expr) (ctx : BatchContext) (sv : List Nat) :
    (Expr.resolve_batch ctx sv e).resolved_values.length = ctx.resolved_values.length := by
  induction e generalizing ctx with
  | literal v => exact writeSlots_length _ sv ctx.resolved_values
  | query f => exact writeSlots_length _ sv ctx.resolved_values
  | not inner ih =>
    show (updateSlots notTransform (Expr.resolve_batch ctx sv inner).resolved_values sv).length
      = ctx.resolved_values.length
    rw [updateSlots_length, ih]

theorem resolve_batch_getD_not_mem (e : Expr) (ctx : BatchContext) (sv : List Nat) {i : Nat}
    (h : i ∉ sv) :
    (Expr.resolve_batch ctx sv e).resolved_values.getD i defaultResolved
      = ctx.resolved_values.getD i defaultResolved := by
  induction e generalizing ctx with
  | literal v => exact writeSlots_getD_not_mem _ sv defaultResolved h ctx.resolved_values
  | query f => exact writeSlots_getD_not_mem _ sv defaultResolved h ctx.resolved_values
  | not inner ih =>
    show (updateSlots notTransform (Expr.resolve_batch ctx sv inner).resolved_values sv).getD i
      defaultResolved = ctx.resolved_values.getD i defaultResolved
    rw [updateSlots_getD_not_mem notTransform sv defaultResolved h, ih]

theorem notTransform_resolve (r : Record) (e : Expr) :
    notTransform (Expr.resolve r e) = Expr.resolve r (Expr.not e) := by
  cases h : Expr.resolve r e with
  | error err => simp [notTransform, Expr.resolve, h]
  | ok v => simp [notTransform, Expr.resolve, h]

theorem resolve_batch_getD_mem (e : Expr) (sv : List Nat) (hnd : sv.Nodup) {i : Nat}
    (hmem : i ∈ sv) :
    ∀ ctx : BatchContext, i < ctx.resolved_values.length →
      (Expr.resolve_batch ctx sv e).resolved_values.getD i defaultResolved
        = Expr.resolve (ctx.records.getD i []) e := by
  induction e with
  | literal v =>
    intro ctx hlt
    exact writeSlots_getD_mem _ sv defaultResolved hmem ctx.resolved_values hlt
  | query f =>
    intro ctx hlt
    exact writeSlots_getD_mem _ sv defaultResolved hmem ctx.resolved_values hlt
  | not inner ih =>
    intro ctx hlt
    show (updateSlots notTransform (Expr.resolve_batch ctx sv inner).resolved_values sv).getD i
      defaultResolved = Expr.resolve (ctx.records.getD i []) (Expr.not inner)
    rw [updateSlots_getD_mem notTransform sv hnd hmem
      (Expr.resolve_batch ctx sv inner).resolved_values
      (by rw [resolve_batch_length]; exact hlt)]
    rw [ih ctx hlt, notTransform_resolve]

/-- C1: for every compiled negation expression, every batch, and every
selection vector of distinct in-bounds indices whose slots already hold
the fully resolved results of the child, after batch resolution every
selected slot holds exactly the value scalar resolution of the negation
against that record alone would produce (the negated boolean, or the
propagated failure). -/
theorem not_resolve_batch_refines_scalar (child : Expr) (ctx : BatchContext) (sv : List Nat)
    (hnd : sv.Nodup) (hbound : ∀ i ∈ sv, i < ctx.resolved_values.length)
    (hchild : ∀ i ∈ sv, ctx.resolved_values.getD i defaultResolved
      = Expr.resolve (ctx.records.getD i []) child) :
    ∀ i ∈ sv,
      (Expr.resolve_batch ctx sv (Expr.not child)).resolved_values.getD i defaultResolved
        = Expr.resolve (ctx.records.getD i []) (Expr.not child) := by
  intro i hi
  exact resolve_batch_getD_mem (Expr.not child) sv hnd hi ctx (hbound i hi)

/-- Witness for C1: the spec scenario, three records with field a bound
to true, the string x, and false, selection vector covering indices 0
and 2, slots prefilled with the child results. -/
theorem not_resolve_batch_refines_scalar_witness :
    (Expr.resolve_batch
        ⟨[[(("a"), Value.boolean true)], [(("a"), Value.string "x")], [(("a"), Value.boolean false)]],
          [Except.ok (Value.boolean true), Except.ok (Value.string "x"),
            Except.ok (Value.boolean false)]⟩
        [0, 2] (Expr.not (Expr.query "a"))).resolved_values.getD 0 defaultResolved
      = Except.ok (Value.boolean false)
    ∧ (Expr.resolve_batch
        ⟨[[(("a"), Value.boolean true)], [(("a"), Value.string "x")], [(("a"), Value.boolean false)]],
          [Except.ok (Value.boolean true), Except.ok (Value.string "x"),
            Except.ok (Value.boolean false)]⟩
        [0, 2] (Expr.not (Expr.query "a"))).resolved_values.getD 2 defaultResolved
      = Except.ok (Value.boolean true) := by
  have h := not_resolve_batch_refines_scalar (Expr.query "a")
    ⟨[[(("a"), Value.boolean true)], [(("a"), Value.string "x")], [(("a"), Value.boolean false)]],
      [Except.ok (Value.boolean true), Except.ok (Value.string "x"),
        Except.ok (Value.boolean false)]⟩
    [0, 2] (by decide) (by decide) (by decide)
  constructor
  · rw [h 0 (by decide)]; decide
  · rw [h 2 (by decide)]; decide

/-- C5: batch resolution of negation never writes a slot outside the
selection vector: every unselected slot is identical to its pre-call
value afterwards, and no failure is raised for an unselected index. -/
theorem not_resolve_batch_frame (child : Expr) (ctx : BatchContext) (sv : List Nat) (i : Nat)
    (h : i ∉ sv) :
    (Expr.resolve_batch ctx sv (Expr.not child)).resolved_values.getD i defaultResolved
      = ctx.resolved_values.getD i defaultResolved := by
  exact resolve_batch_getD_not_mem (Expr.not child) ctx sv h

/-- Witness for C5: the spec scenario with index 1 excluded; its slot
keeps its pre-call value although its record holds a non-boolean
string. -/
theorem not_resolve_batch_frame_witness :
    (Expr.resolve_batch
        ⟨[[(("a"), Value.boolean true)], [(("a"), Value.string "x")], [(("a"), Value.boolean false)]],
          [defaultResolved, Except.ok (Value.string "pre"), defaultResolved]⟩
        [0, 2] (Expr.not (Expr.query "a"))).resolved_values.getD 1 defaultResolved
      = Except.ok (Value.string "pre") := by
  have h := not_resolve_batch_frame (Expr.query "a")
    ⟨[[(("a"), Value.boolean true)], [(("a"), Value.string "x")], [(("a"), Value.boolean false)]],
      [defaultResolved, Except.ok (Value.string "pre"), defaultResolved]⟩
    [0, 2] 1 (by decide)
  rw [h]
  decide

/-- C6: failure handling in batch negation is per-index: a selected
index whose child resolution failed gets exactly that failure written
back, and the failure of one index never prevents the remaining selected
indices from being processed to their own scalar results. -/
theorem not_resolve_batch_failure_per_index (child : Expr) (ctx : BatchContext) (sv : List Nat)
    (hnd : sv.Nodup) (hbound : ∀ j ∈ sv, j < ctx.resolved_values.length) (i : Nat)
    (hi : i ∈ sv) (err : RError)
    (hfail : Expr.resolve (ctx.records.getD i []) child = Except.error err) :
    (Expr.resolve_batch ctx sv (Expr.not child)).resolved_values.getD i defaultResolved
      = Except.error err
    ∧ ∀ j ∈ sv,
        (Expr.resolve_batch ctx sv (Expr.not child)).resolved_values.getD j defaultResolved
          = Expr.resolve (ctx.records.getD j []) (Expr.not child) := by
  constructor
  · rw [resolve_batch_getD_mem (Expr.not child) sv hnd hi ctx (hbound i hi),
      ← notTransform_resolve, hfail]
    rfl
  · intro j hj
    exact resolve_batch_getD_mem (Expr.not child) sv hnd hj ctx (hbound j hj)

/-- Witness for C6: record 0 lacks the queried field, so the child fails
there; the failure is written to slot 0 while slot 1 still gets its
negated boolean. -/
theorem not_resolve_batch_failure_per_index_witness :
    (Expr.resolve_batch ⟨[[], [(("a"), Value.boolean true)]], [defaultResolved, defaultResolved]⟩
        [0, 1] (Expr.not (Expr.query "a"))).resolved_values.getD 0 defaultResolved
      = Except.error (RError.missingField "a")
    ∧ (Expr.resolve_batch ⟨[[], [(("a"), Value.boolean true)]], [defaultResolved, defaultResolved]⟩
        [0, 1] (Expr.not (Expr.query "a"))).resolved_values.getD 1 defaultResolved
      = Except.ok (Value.boolean false) := by
  have h := not_resolve_batch_failure_per_index (Expr.query "a")
    ⟨[[], [(("a"), Value.boolean true)]], [defaultResolved, defaultResolved]⟩
    [0, 1] (by decide) (by decide) 0 (by decide) (RError.missingField "a") (by decide)
  constructor
  · exact h.1
  · rw [h.2 1 (by decide)]; decide

/-- C4: scalar resolution of a constructed negation node: a child
failure is returned unchanged, boolean true becomes false, boolean false
becomes true, and a successfully resolved non-boolean value is turned
into a runtime failure by the defensive boolean re-check. -/
theorem not_resolve_scalar_cases (child : Expr) (ctx : Record) :
    (∀ err : RError, Expr.resolve ctx child = Except.error err →
      Expr.resolve ctx (Expr.not child) = Except.error err)
    ∧ (Expr.resolve ctx child = Except.ok (Value.boolean true) →
      Expr.resolve ctx (Expr.not child) = Except.ok (Value.boolean false))
    ∧ (Expr.resolve ctx child = Except.ok (Value.boolean false) →
      Expr.resolve ctx (Expr.not child) = Except.ok (Value.boolean true))
    ∧ (∀ v : Value, Expr.resolve ctx child = Except.ok v → Value.isBoolean v = false →
      Expr.resolve ctx (Expr.not child) = Except.error (RError.expectedBoolean v)) := by
  refine ⟨?_, ?_, ?_, ?_⟩
  · intro err h
    simp [Expr.resolve, h]
  · intro h
    simp [Expr.resolve, h, Value.try_boolean]
  · intro h
    simp [Expr.resolve, h, Value.try_boolean]
  · intro v h hv
    cases v with
    | boolean b => simp [Value.isBoolean] at hv
    | string s => simp [Expr.resolve, h, Value.try_boolean]

/-- Witness for C4: negating the literals true, false and a string
literal, and a negation whose child fails on a missing field. -/
theorem not_resolve_scalar_cases_witness :
    Expr.resolve [] (Expr.not (Expr.literal (Value.boolean true))) = Except.ok (Value.boolean false)
    ∧ Expr.resolve [] (Expr.not (Expr.literal (Value.boolean false))) = Except.ok (Value.boolean true)
    ∧ Expr.resolve [] (Expr.not (Expr.literal (Value.string "x")))
      = Except.error (RError.expectedBoolean (Value.string "x"))
    ∧ Expr.resolve [] (Expr.not (Expr.query "a")) = Except.error (RError.missingField "a") := by
  refine ⟨?_, ?_, ?_, ?_⟩
  · exact (not_resolve_scalar_cases (Expr.literal (Value.boolean true)) []).2.1 (by decide)
  · exact (not_resolve_scalar_cases (Expr.literal (Value.boolean false)) []).2.2.1 (by decide)
  · exact (not_resolve_scalar_cases (Expr.literal (Value.string "x")) []).2.2.2
      (Value.string "x") (by decide) (by decide)
  · exact (not_resolve_scalar_cases (Expr.query "a") []).1
      (RError.missingField "a") (by decide)

/-- C7: the static type of a negation node has kind exactly boolean, and
its fallibility equals exactly the fallibility of the type of its
child. -/
theorem not_type_def_boolean_fallibility (child : Expr) :
    (Expr.type_def (Expr.not child)).kind = Kind.booleanOnly
    ∧ (Expr.type_def (Expr.not child)).fallible = (Expr.type_def child).fallible := by
  constructor
  · rfl
  · rfl

/-- C2: when the static type of the operand is not exactly boolean,
construction fails with a NonBoolean diagnostic carrying the span of the
negation operator, the span of the operand, and the actual kind of the
operand; no node is returned. -/
theorem not_new_nonboolean_error (node : Span × Expr) (not_span : Span)
    (h : TypeDef.is_boolean (Expr.type_def node.2) = false) :
    Not.new node not_span = Except.error
      { variant := ErrorVariant.NonBoolean (Expr.type_def node.2).kind
        not_span := not_span
        expr_span := node.1 } := by
  simp [Not.new, h]

/-- Witness for C2: negation over a string literal fails with the
NonBoolean diagnostic at the given spans. -/
theorem not_new_nonboolean_error_witness :
    Not.new (⟨3, 6⟩, Expr.literal (Value.string "x")) ⟨2, 3⟩ = Except.error
      { variant := ErrorVariant.NonBoolean Kind.bytesOnly
        not_span := ⟨2, 3⟩
        expr_span := ⟨3, 6⟩ } := by
  exact not_new_nonboolean_error (⟨3, 6⟩, Expr.literal (Value.string "x")) ⟨2, 3⟩ (by decide)

/-- C9: construction succeeds, returning a node wrapping exactly the
given operand, if and only if the static type of the operand is exactly
boolean. -/
theorem not_new_ok_iff (node : Span × Expr) (not_span : Span) :
    Not.new node not_span = Except.ok (Expr.not node.2)
      ↔ TypeDef.is_boolean (Expr.type_def node.2) = true := by
  constructor
  · intro h
    by_cases hb : TypeDef.is_boolean (Expr.type_def node.2) = true
    · exact hb
    · rw [Not.new] at h
      rw [Bool.not_eq_true] at hb
      rw [hb] at h
      simp at h
  · intro hb
    simp [Not.new, hb]

/-- C3: every NonBoolean negation construction error renders with the
stable code 660, a primary label at the span of the negation operator
reading that negation only works on boolean values, a context label at
the span of the operand reporting its actual kind, and notes suggesting
coercion including the documentation link to the coerce functions. -/
theorem nonboolean_error_rendering (k : Kind) (ns es : Span) :
    Error.code ⟨ErrorVariant.NonBoolean k, ns, es⟩ = 660
    ∧ Error.labels ⟨ErrorVariant.NonBoolean k, ns, es⟩
      = [ Label.primary ("negation only works on boolean values") ns,
          Label.context (String.append "this expression resolves to " (Kind.display k)) es ]
    ∧ Error.notes ⟨ErrorVariant.NonBoolean k, ns, es⟩
      = [ Note.CoerceValue,
          Note.SeeDocs ("type coercion") (Urls.func_docs ("#coerce-functions")) ] := by
  refine ⟨rfl, rfl, rfl⟩

theorem data_append (a b : String) : (String.append a b).data = a.data ++ b.data := by
  cases a; cases b; rfl

theorem parseChars_quote (s : String) (hs : s.data.all (fun d => d != quoteChar) = true) :
    parseChars (quoteChar :: (s.data ++ [quoteChar])) = some (Expr.literal (Value.string s)) := by
  have h2 : ¬ (quoteChar :: (s.data ++ [quoteChar]) = ("true").toList) := by
    intro hc
    injection hc with hh _
    exact absurd hh (by decide)
  have h3 : ¬ (quoteChar :: (s.data ++ [quoteChar]) = ("false").toList) := by
    intro hc
    injection hc with hh _
    exact absurd hh (by decide)
  rw [parseChars, if_neg (by decide : ¬ (quoteChar = bangChar))]
  rw [parseAtom, if_neg h2, if_neg h3]
  rw [if_neg (by decide : ¬ (quoteChar = dotChar)), if_pos rfl]
  rw [List.getLast?_concat (s.data)]
  rw [List.dropLast_concat, hs]
  simp

theorem parse_display (e : Expr) (h : escFree e = true) :
    parse (Expr.display e) = some e := by
  induction e with
  | literal v =>
    cases v with
    | boolean b => cases b <;> decide
    | string s =>
      have hs : s.data.all (fun d => d != quoteChar) = true := h
      have hdata : (Expr.display (Expr.literal (Value.string s))).data
          = quoteChar :: (s.data ++ [quoteChar]) := by
        show (String.append (String.append "\"" s) "\"").data = _
        rw [data_append, data_append]
        simp [quoteChar]
      rw [parse, hdata]
      exact parseChars_quote s hs
  | query f =>
    have hdata : (Expr.display (Expr.query f)).data = dotChar :: f.data := by
      show (String.append "." f).data = _
      rw [data_append]
      rfl
    have h2 : ¬ (dotChar :: f.data = ("true").toList) := by
      intro hc
      injection hc with hh _
      exact absurd hh (by decide)
    have h3 : ¬ (dotChar :: f.data = ("false").toList) := by
      intro hc
      injection hc with hh _
      exact absurd hh (by decide)
    rw [parse, hdata]
    rw [parseChars, if_neg (by decide : ¬ (dotChar = bangChar))]
    rw [parseAtom, if_neg h2, if_neg h3, if_pos rfl]
  | not inner ih =>
    have hdata : (Expr.display (Expr.not inner)).data = bangChar :: (Expr.display inner).data := by
      show (String.append "!" (Expr.display inner)).data = _
      rw [data_append]
      rfl
    rw [parse, hdata]
    rw [parseChars, if_pos rfl]
    have hi : parseChars (Expr.display inner).data = some inner := ih h
    rw [hi]
    rfl

/-- C8: a negation node renders as the bang character followed by the
rendering of its child, and (for a child whose string literals are free
of embedded quotes, so the display grammar is unambiguous) reparsing the
displayed text yields the same node again, hence a node of the same kind
and fallibility. -/
theorem not_display_roundtrip (child : Expr) (h : escFree child = true) :
    Expr.display (Expr.not child) = String.append "!" (Expr.display child)
    ∧ parse (Expr.display (Expr.not child)) = some (Expr.not child)
    ∧ ∀ e2 : Expr, parse (Expr.display (Expr.not child)) = some e2 →
        Expr.type_def e2 = Expr.type_def (Expr.not child) := by
  refine ⟨rfl, parse_display (Expr.not child) h, ?_⟩
  intro e2 h2
  rw [parse_display (Expr.not child) h] at h2
  injection h2 with h3
  rw [h3]

/-- Witness for C8: displaying and reparsing the negation of the literal
true. -/
theorem not_display_roundtrip_witness :
    Expr.display (Expr.not (Expr.literal (Value.boolean true)))
      = String.append "!" (Expr.display (Expr.literal (Value.boolean true)))
    ∧ parse (Expr.display (Expr.not (Expr.literal (Value.boolean true))))
      = some (Expr.not (Expr.literal (Value.boolean true))) := by
  have h := not_display_roundtrip (Expr.literal (Value.boolean true)) (by decide)
  exact ⟨h.1, h.2.1⟩

end VRL

namespace NewRelic

theorem metric_entry_error (now : Int) (m : Metric) (hn : metricNaN m = true) :
    metric_entry now m = Except.error (NewRelicSinkError.new "NaN value not supported") := by
  cases hv : m.value with
  | Gauge f =>
    have hf : f.isNaN = true := by rw [metricNaN, hv] at hn; exact hn
    simp [metric_entry, hv, NotNan.new, hf]
  | Counter f =>
    have hf : f.isNaN = true := by rw [metricNaN, hv] at hn; exact hn
    simp [metric_entry, hv, NotNan.new, hf]
  | Other =>
    rw [metricNaN, hv] at hn
    cases hn

theorem metric_entry_some (now : Int) (m : Metric) (hn : metricNaN m = false)
    (hp : metricProducesEntry m = true) :
    entryIsSome (metric_entry now m) = true := by
  cases hv : m.value with
  | Gauge f =>
    have hf : f.isNaN = false := by rw [metricNaN, hv] at hn; exact hn
    cases hk : m.kind with
    | Incremental => simp [metric_entry, hv, hk, NotNan.new, hf, entryIsSome]
    | Absolute => simp [metric_entry, hv, hk, NotNan.new, hf, entryIsSome]
  | Counter f =>
    have hf : f.isNaN = false := by rw [metricNaN, hv] at hn; exact hn
    cases hk : m.kind with
    | Incremental =>
      rw [metricProducesEntry, hv, hk] at hp
      cases hi : m.interval_ms with
      | some iv => simp [metric_entry, hv, hk, hi, NotNan.new, hf, entryIsSome]
      | none => rw [hi] at hp; cases hp
    | Absolute => simp [metric_entry, hv, hk, NotNan.new, hf, entryIsSome]
  | Other =>
    cases hk : m.kind with
    | Incremental => simp [metric_entry, hv, hk, entryIsSome]
    | Absolute => simp [metric_entry, hv, hk, entryIsSome]

theorem metric_entry_ok_none (now : Int) (m : Metric) (hn : metricNaN m = false)
    (hp : metricProducesEntry m = false) :
    metric_entry now m = Except.ok none := by
  cases hv : m.value with
  | Gauge f => rw [metricProducesEntry, hv] at hp; cases m.kind <;> cases hp
  | Counter f =>
    have hf : f.isNaN = false := by rw [metricNaN, hv] at hn; exact hn
    cases hk : m.kind with
    | Incremental =>
      rw [metricProducesEntry, hv, hk] at hp
      cases hi : m.interval_ms with
      | some iv => rw [hi] at hp; cases hp
      | none => simp [metric_entry, hv, hk, hi, NotNan.new, hf]
    | Absolute => rw [metricProducesEntry, hv, hk] at hp; cases hp
  | Other => rw [metricProducesEntry, hv] at hp; cases m.kind <;> cases hp

end NewRelic
namespace NewRelic

theorem metric_entry_error_inv (now : Int) (m : Metric) (e : NewRelicSinkError)
    (h : metric_entry now m = Except.error e) :
    metricNaN m = true := by
  by_cases hn : metricNaN m = true
  · exact hn
  · have hn2 : metricNaN m = false := by simpa using hn
    by_cases hp : metricProducesEntry m = true
    · have hs := metric_entry_some now m hn2 hp
      rw [h] at hs
      simp [entryIsSome] at hs
    · have hp2 : metricProducesEntry m = false := by simpa using hp
      rw [metric_entry_ok_none now m hn2 hp2] at h
      cases h

theorem metric_entry_some_inv (now : Int) (m : Metric) (kv : KeyValData)
    (h : metric_entry now m = Except.ok (some kv)) :
    metricNaN m = false ∧ metricProducesEntry m = true := by
  have hn : metricNaN m = false := by
    by_cases hn : metricNaN m = true
    · rw [metric_entry_error now m hn] at h
      cases h
    · simpa using hn
  refine ⟨hn, ?_⟩
  by_cases hp : metricProducesEntry m = true
  · exact hp
  · have hp2 : metricProducesEntry m = false := by simpa using hp
    rw [metric_entry_ok_none now m hn hp2] at h
    injection h with h2
    cases h2

theorem metric_entry_none_inv (now : Int) (m : Metric)
    (h : metric_entry now m = Except.ok none) :
    metricProducesEntry m = false := by
  have hn : metricNaN m = false := by
    by_cases hn : metricNaN m = true
    · rw [metric_entry_error now m hn] at h
      cases h
    · simpa using hn
  by_cases hp : metricProducesEntry m = true
  · have hs := metric_entry_some now m hn hp
    rw [h] at hs
    simp [entryIsSome] at hs
  · simpa using hp

theorem metrics_collect_isOk_iff (now : Int) (evs : List Event) :
    (metrics_collect now evs).isOk = false ↔ evs.any eventNaN = true := by
  induction evs with
  | nil => simp [metrics_collect, Except.isOk, Except.toBool]
  | cons ev rest ih =>
    cases ev with
    | log l => simpa [metrics_collect, eventNaN] using ih
    | trace => simpa [metrics_collect, eventNaN] using ih
    | metric m =>
      cases hme : metric_entry now m with
      | error e =>
        have hn := metric_entry_error_inv now m e hme
        simp [metrics_collect, hme, eventNaN, hn, Except.isOk, Except.toBool]
      | ok entry =>
        have hn : metricNaN m = false := by
          by_cases hn : metricNaN m = true
          · rw [metric_entry_error now m hn] at hme
            cases hme
          · simpa using hn
        have hev : eventNaN (Event.metric m) = false := hn
        cases hrest : metrics_collect now rest with
        | error e2 =>
          have hany : rest.any eventNaN = true := by
            rw [hrest] at ih
            exact ih.mp rfl
          simp only [metrics_collect, hme, hrest]
          simp [List.any_cons, hany, Except.isOk, Except.toBool]
        | ok tail =>
          have hany : rest.any eventNaN = false := by
            rw [hrest] at ih
            by_cases hb : rest.any eventNaN = true
            · exact absurd (ih.mpr hb) (by simp [Except.isOk, Except.toBool])
            · simpa using hb
          cases entry with
          | some kv =>
            simp only [metrics_collect, hme, hrest]
            simp [List.any_cons, hev, hany, Except.isOk, Except.toBool]
          | none =>
            simp only [metrics_collect, hme, hrest]
            simp [List.any_cons, hev, hany, Except.isOk, Except.toBool]

theorem metrics_collect_ok_empty (now : Int) (evs : List Event) :
    ∀ l : List KeyValData, metrics_collect now evs = Except.ok l →
      l.isEmpty = evs.all (fun ev => !(eventProduces ev)) := by
  induction evs with
  | nil =>
    intro l h
    rw [metrics_collect] at h
    injection h with h2
    rw [← h2]
    rfl
  | cons ev rest ih =>
    intro l h
    cases ev with
    | log le =>
      simp only [metrics_collect] at h
      simp [eventProduces, ih l h]
    | trace =>
      simp only [metrics_collect] at h
      simp [eventProduces, ih l h]
    | metric m =>
      cases hme : metric_entry now m with
      | error e => simp [metrics_collect, hme] at h
      | ok entry =>
        cases hrest : metrics_collect now rest with
        | error e2 => simp [metrics_collect, hme, hrest] at h
        | ok tail =>
          cases entry with
          | some kv =>
            simp [metrics_collect, hme, hrest] at h
            obtain ⟨hn, hp⟩ := metric_entry_some_inv now m kv hme
            rw [← h]
            simp [eventProduces, hp]
          | none =>
            simp [metrics_collect, hme, hrest] at h
            have hp := metric_entry_none_inv now m hme
            rw [← h]
            simp [eventProduces, hp, ih tail hrest]

theorem events_collect_isEmpty (jparse : String → Option (List (String × JVal)))
    (evs : List Event) :
    (events_collect jparse evs).isEmpty = evs.all (fun ev => !(isLogEvent ev)) := by
  induction evs with
  | nil => rfl
  | cons ev rest ih => cases ev <;> simp [events_collect, isLogEvent, ih]

theorem logs_collect_isEmpty (evs : List Event) :
    (logs_collect evs).isEmpty = evs.all (fun ev => !(isLogEvent ev)) := by
  induction evs with
  | nil => rfl
  | cons ev rest ih => cases ev <;> simp [logs_collect, isLogEvent, ih]

theorem metrics_new_has_entries (l : List KeyValData) (h : l.isEmpty = false) :
    (MetricsApiModel.new l).has_entries = true := by
  simp [MetricsApiModel.new, MetricsApiModel.has_entries, h]

theorem events_new_has_entries (l : List KeyValData) (h : l.isEmpty = false) :
    (EventsApiModel.new l).has_entries = true := by
  simp [EventsApiModel.new, EventsApiModel.has_entries, h]

theorem logs_new_has_entries (l : List KeyValData) (h : l.isEmpty = false) :
    (LogsApiModel.new l).has_entries = true := by
  simp [LogsApiModel.new, LogsApiModel.has_entries, h]

end NewRelic
namespace NewRelic

/-- C10 (amended): the conversions to EventsApiModel and LogsApiModel
return Err exactly when zero entries were produced (no log event in the
input); the conversion to MetricsApiModel returns Err exactly when some
gauge or counter metric value is NaN or when zero entries were produced
(no metric event, or every candidate skipped); an Ok result always
contains at least one entry. -/
theorem try_from_entry_characterization (now : Int)
    (jparse : String → Option (List (String × JVal))) (evs : List Event) :
    ((MetricsApiModel.try_from now evs).isOk = false ↔
      (evs.any eventNaN = true ∨ evs.all (fun ev => !(eventProduces ev)) = true))
    ∧ (∀ model : MetricsApiModel, MetricsApiModel.try_from now evs = Except.ok model →
        MetricsApiModel.has_entries model = true)
    ∧ ((EventsApiModel.try_from jparse evs).isOk = false ↔
        evs.all (fun ev => !(isLogEvent ev)) = true)
    ∧ (∀ model : EventsApiModel, EventsApiModel.try_from jparse evs = Except.ok model →
        EventsApiModel.has_entries model = true)
    ∧ ((LogsApiModel.try_from evs).isOk = false ↔
        evs.all (fun ev => !(isLogEvent ev)) = true)
    ∧ (∀ model : LogsApiModel, LogsApiModel.try_from evs = Except.ok model →
        LogsApiModel.has_entries model = true) := by
  refine ⟨?_, ?_, ?_, ?_, ?_, ?_⟩
  · cases hc : metrics_collect now evs with
    | error e =>
      have hany : evs.any eventNaN = true := by
        have hiff := metrics_collect_isOk_iff now evs
        rw [hc] at hiff
        exact hiff.mp rfl
      simp [MetricsApiModel.try_from, hc, hany, Except.isOk, Except.toBool]
    | ok l =>
      have hany : evs.any eventNaN = false := by
        have hiff := metrics_collect_isOk_iff now evs
        rw [hc] at hiff
        by_cases hb : evs.any eventNaN = true
        · exact absurd (hiff.mpr hb) (by simp [Except.isOk, Except.toBool])
        · simpa using hb
      have hemp := metrics_collect_ok_empty now evs l hc
      cases hl : l.isEmpty with
      | true =>
        rw [hl] at hemp
        simp [MetricsApiModel.try_from, hc, hl, hany, ← hemp, Except.isOk, Except.toBool]
      | false =>
        rw [hl] at hemp
        simp [MetricsApiModel.try_from, hc, hl, hany, ← hemp, Except.isOk, Except.toBool]
  · intro model h
    cases hc : metrics_collect now evs with
    | error e => simp [MetricsApiModel.try_from, hc] at h
    | ok l =>
      simp only [MetricsApiModel.try_from, hc] at h
      cases hl : l.isEmpty with
      | true =>
        rw [hl] at h
        simp at h
      | false =>
        rw [hl] at h
        simp at h
        rw [← h]
        exact metrics_new_has_entries l hl
  · have he := events_collect_isEmpty jparse evs
    cases hce : (events_collect jparse evs).isEmpty with
    | true =>
      rw [hce] at he
      simp [EventsApiModel.try_from, hce, ← he, Except.isOk, Except.toBool]
    | false =>
      rw [hce] at he
      simp [EventsApiModel.try_from, hce, ← he, Except.isOk, Except.toBool]
  · intro model h
    simp only [EventsApiModel.try_from] at h
    cases hce : (events_collect jparse evs).isEmpty with
    | true =>
      rw [hce] at h
      simp at h
    | false =>
      rw [hce] at h
      simp at h
      rw [← h]
      exact events_new_has_entries _ hce
  · have he := logs_collect_isEmpty evs
    cases hce : (logs_collect evs).isEmpty with
    | true =>
      rw [hce] at he
      simp [LogsApiModel.try_from, hce, ← he, Except.isOk, Except.toBool]
    | false =>
      rw [hce] at he
      simp [LogsApiModel.try_from, hce, ← he, Except.isOk, Except.toBool]
  · intro model h
    simp only [LogsApiModel.try_from] at h
    cases hce : (logs_collect evs).isEmpty with
    | true =>
      rw [hce] at h
      simp at h
    | false =>
      rw [hce] at h
      simp at h
      rw [← h]
      exact logs_new_has_entries _ hce

/-- Counterexample to C10 as stated: a batch holding one valid absolute
gauge metric followed by one NaN gauge metric produces entries from the
input (both events are unskipped metric candidates), yet the metrics
conversion returns Err because the NaN value aborts the whole
conversion, so Err is not equivalent to zero entries produced. -/
theorem try_from_err_iff_counterexample :
    ¬ (((MetricsApiModel.try_from 0
        [Event.metric ⟨"m", none, MetricValue.Gauge ⟨false, 1⟩, MetricKind.Absolute, some 5, none⟩,
          Event.metric ⟨"n", none, MetricValue.Gauge ⟨true, 0⟩, MetricKind.Absolute, some 5, none⟩]).isOk
          = false)
      ↔ specMetricEntriesProduced
        [Event.metric ⟨"m", none, MetricValue.Gauge ⟨false, 1⟩, MetricKind.Absolute, some 5, none⟩,
          Event.metric ⟨"n", none, MetricValue.Gauge ⟨true, 0⟩, MetricKind.Absolute, some 5, none⟩]
        = 0) := by
  decide

/-- Witness for C10 (amended): a batch with only a trace event makes the
metrics conversion fail, and the logs conversion of one empty log event
yields a model with one entry. -/
theorem try_from_entry_characterization_witness :
    (MetricsApiModel.try_from 0 [Event.trace]).isOk = false
    ∧ LogsApiModel.has_entries
        (LogsApiModel.new [[(("message"), NRValue.str "log from vector")]]) = true := by
  have h1 := try_from_entry_characterization 0 (fun _ => none) [Event.trace]
  have h2 := try_from_entry_characterization 0 (fun _ => none) [Event.log ⟨[]⟩]
  constructor
  · exact h1.1.mpr (Or.inr (by decide))
  · exact h2.2.2.2.2.2 (LogsApiModel.new [[(("message"), NRValue.str "log from vector")]])
      (by decide)

end NewRelic
